import Mathlib

/-!
Verification development for the Arachne user-level threading library
(src/Arachne.h). The definitions below are a shallow embedding of the
data model and the inline operations of the header: the occupancy word
(`MaskAndCount`), the slot-allocation loop of the core-targeted
`createThread`, the two-choice load-balanced `createThread`, the
`SpinLock` operations, `ThreadId` with its comparison operators, and the
body of `block()`. Machine integers are modelled as `Nat` with explicit
`% 2 ^ w` truncation exactly where the C++ stores into a bounded field.
-/

namespace Arachne

/-- Largest number of Arachne threads per core (src/Arachne.h:226). -/
def maxThreadsPerCore : Nat := 56

/-- Value of `wakeupTimeInCycles` for a blocked live thread: `~0L` as a
64-bit unsigned value (src/Arachne.h:238). -/
def BLOCKED : Nat := 2 ^ 64 - 1

/-- Value of `wakeupTimeInCycles` for a context not hosting a thread:
`~0L - 1` (src/Arachne.h:244). -/
def UNOCCUPIED : Nat := 2 ^ 64 - 2

/-- Modelled from the spec: `CACHE_LINE_SIZE` is defined in `Common.h`,
which is not part of src/; the spec fixes one cache line at 64 bytes. -/
def CACHE_LINE_SIZE : Nat := 64

/-- The per-core occupancy word (src/Arachne.h:256-264): a 64-bit value
viewed as a 56-bit `occupied` bitfield plus an 8-bit `numOccupied`
count. The fields are `Nat`s here; every store into them in the
operations below truncates exactly as the C++ bitfield assignment does. -/
structure MaskAndCount where
  occupied : Nat
  numOccupied : Nat
deriving DecidableEq, Repr

/-- The per-thread state relevant to thread creation
(src/Arachne.h:179-222): the wakeup deadline, the slot-reuse generation
counter and the invocation storage. The invocation buffer holds either
nothing or an abstract task value standing for the placement-constructed
`ThreadInvocation` object. -/
structure ThreadContext where
  wakeupTimeInCycles : Nat
  generation : Nat
  threadInvocation : Option Nat
deriving DecidableEq, Repr

/-- Identifier of an Arachne thread (src/Arachne.h:41-64): a context
pointer paired with a generation number. A pointer `&activeLists[k][i]`
is modelled as `some (k, i)`; the null pointer is `none`. -/
structure ThreadId where
  context : Option (Nat × Nat)
  generation : Nat
deriving DecidableEq, Repr

/-- `ThreadId::operator==` (src/Arachne.h:55-58): equality of both the
context pointer and the generation. -/
def ThreadId.eq (a b : ThreadId) : Bool :=
  a.context == b.context && a.generation == b.generation

/-- `ThreadId::operator!=` (src/Arachne.h:60-63): the negation of
`operator==`. -/
def ThreadId.ne (a b : ThreadId) : Bool :=
  !(ThreadId.eq a b)

/-- `NullThread` (src/Arachne.h:129): the default-constructed
`ThreadId`, whose constructor (src/Arachne.h:51-53) sets the context to
`NULL` and the generation to 0. -/
def NullThread : ThreadId :=
  { context := none, generation := 0 }

/-- The slot-search loop of `createThread`
(src/Arachne.h:344-346):
`while ((slotMap.occupied & (1L << index)) && index < maxThreadsPerCore) index++;`
starting from `index = 0`. The extra `gas` argument makes the recursion
structural; it only bounds the iteration count and never runs out when
the loop is entered with `gas = maxThreadsPerCore + 1 - index`, because
the guard `index < maxThreadsPerCore` stops the loop no later than
`index = maxThreadsPerCore`. -/
def findSlotLoop (occupied : Nat) : Nat → Nat → Nat
  | index, 0 => index
  | index, gas + 1 =>
    if occupied &&& (1 <<< index) ≠ 0 ∧ index < maxThreadsPerCore then
      findSlotLoop occupied (index + 1) gas
    else index

/-- One successful pass of the slot-reservation loop of `createThread`
(src/Arachne.h:336-358), as the pure function on the occupancy-word
snapshot the compare-and-swap succeeds against: search for the first
non-occupied slot; if the search reaches `maxThreadsPerCore`, fail;
otherwise install the snapshot with that bit set (masked back to the
56-bit field, as the source's `& 0x00FFFFFFFFFFFFFF` does) and
`numOccupied` incremented as an 8-bit field. -/
def tryAllocSlot (w : MaskAndCount) : Option (Nat × MaskAndCount) :=
  let index := findSlotLoop w.occupied 0 (maxThreadsPerCore + 1)
  if index = maxThreadsPerCore then none
  else
    some (index,
      { occupied := (w.occupied ||| (1 <<< index)) &&& 0x00FFFFFFFFFFFFFF,
        numOccupied := (w.numOccupied + 1) % 256 })

/-- The global registry touched by thread creation: the per-core
occupancy words `occupiedAndCount` (src/Arachne.h:266) and the per-core
context arrays `activeLists` (src/Arachne.h:253), both modelled as total
maps. -/
structure ArachneState where
  occupiedAndCount : Nat → MaskAndCount
  activeLists : Nat → Nat → ThreadContext

/-- Core-targeted `createThread(kId, f, args...)`
(src/Arachne.h:325-366) after the `kId == -1` substitution, in a
sequential model where the compare-and-swap succeeds against the current
word (contended retries re-run the same pure body on the then-current
word, so the successful iteration is exactly this function). On a full
core it returns `NullThread` and the state untouched; otherwise it
reserves the slot, placement-constructs the invocation, publishes
`wakeupTimeInCycles = 0` and returns the id built from the context
pointer and its generation. -/
def createThreadOn (s : ArachneState) (kId : Nat) (task : Nat) :
    ThreadId × ArachneState :=
  match tryAllocSlot (s.occupiedAndCount kId) with
  | none => (NullThread, s)
  | some (index, newWord) =>
    let ctx := s.activeLists kId index
    let ctx2 : ThreadContext :=
      { ctx with threadInvocation := some task, wakeupTimeInCycles := 0 }
    ({ context := some (kId, index), generation := ctx.generation },
     { occupiedAndCount := fun k =>
         if k = kId then newWord else s.occupiedAndCount k,
       activeLists := fun k i =>
         if k = kId ∧ i = index then ctx2 else s.activeLists k i })

/-- Population count of the 56 occupancy bits; `popcount(occupied)` in
the spec's invariant `num_occupied == popcount(occupied)`. -/
def popcount56 (n : Nat) : Nat :=
  (List.range maxThreadsPerCore).countP (fun i => n.testBit i)

/-- The spec's occupancy-word invariant:
`num_occupied == popcount(occupied)`. -/
def maskAndCountInvariant (w : MaskAndCount) : Prop :=
  w.numOccupied = popcount56 w.occupied

/-- `static_cast<int>(r)` applied to a 64-bit unsigned value
(src/Arachne.h:392): two's-complement truncation to a 32-bit signed
integer. -/
def castUInt64ToInt (r : Nat) : Int :=
  if r % 2 ^ 32 < 2 ^ 31 then ((r % 2 ^ 32 : Nat) : Int)
  else ((r % 2 ^ 32 : Nat) : Int) - 2 ^ 32

/-- Conversion of a signed 32-bit value to `unsigned int`, the usual
arithmetic conversion C++ performs on the left operand of
`static_cast<int>(random()) % numCores` because `numCores` is
`uint32_t` (src/Arachne.h:36): reduction modulo `2 ^ 32`. -/
def castIntToUInt32 (z : Int) : Nat :=
  (z % 2 ^ 32).toNat

/-- One candidate-core computation of the load-balanced `createThread`
(src/Arachne.h:392-395): `static_cast<int>(random()) % numCores`, with
the cast chain made explicit. Because `numCores` is unsigned, the `%`
is evaluated in `unsigned int`. -/
def candidateCore (r numCores : Nat) : Nat :=
  castIntToUInt32 (castUInt64ToInt r) % numCores

/-- The distinct-core retry loop of the load-balanced `createThread`
(src/Arachne.h:393-395): `choice2 = cand; while (choice2 == choice1)
choice2 = cand;` driven by the stream `rands` of `random()` outputs,
consuming `rands k` first. The `fuel` argument bounds the number of
iterations; `none` means the loop has not terminated within `fuel`
draws. -/
def pickSecondChoice (numCores choice1 : Nat) (rands : Nat → Nat) :
    Nat → Nat → Option Nat
  | _, 0 => none
  | k, fuel + 1 =>
    let c := candidateCore (rands k) numCores
    if c = choice1 then pickSecondChoice numCores choice1 rands (k + 1) fuel
    else some c

/-- Core selection of the load-balanced `createThread`
(src/Arachne.h:391-401): `choice1` from the first `random()` draw, the
distinct-`choice2` retry loop from the following draws, then the core
with the fewer `numOccupied` (ties fall to `choice2` through the `else`
branch). Returns `(choice1, choice2, kId)`, or `none` when the retry
loop does not terminate within `fuel` draws. -/
def chooseCore (occ : Nat → MaskAndCount) (numCores : Nat)
    (rands : Nat → Nat) (fuel : Nat) : Option (Nat × Nat × Nat) :=
  let choice1 := candidateCore (rands 0) numCores
  match pickSecondChoice numCores choice1 rands 1 fuel with
  | none => none
  | some choice2 =>
    let kId :=
      if (occ choice1).numOccupied < (occ choice2).numOccupied then choice1
      else choice2
    some (choice1, choice2, kId)

/-- Load-balanced `createThread(f, args...)` (src/Arachne.h:386-404):
pick a core by two-choice selection, then delegate to the core-targeted
`createThread`. `none` means the distinct-core loop never exited within
`fuel` draws (the call has not returned). -/
def createThreadLB (s : ArachneState) (numCores : Nat)
    (rands : Nat → Nat) (fuel : Nat) (task : Nat) :
    Option (ThreadId × ArachneState) :=
  match chooseCore s.occupiedAndCount numCores rands fuel with
  | none => none
  | some (_, _, kId) => some (createThreadOn s kId task)

/-- A scheduler-visible step performed by one of the public blocking
operations: a store to the current context's `wakeupTimeInCycles`, or a
call into dispatcher selection (`dispatch()`). -/
inductive DispatcherAction where
  | setWakeupTime (v : Nat)
  | dispatchCall
deriving DecidableEq, BEq, Repr

/-- The body of `block()` (src/Arachne.h:416-418), as the sequence of
scheduler-visible steps it performs: the source body is exactly
`{ dispatch(); }`, a single call into dispatcher selection with no
store to `wakeupTimeInCycles`. -/
def blockBody : List DispatcherAction :=
  [DispatcherAction.dispatchCall]

/-- `std::atomic<bool>::exchange` on the `SpinLock` state
(src/Arachne.h:78-95): returns the previous value and installs the new
one. -/
def exchange (s v : Bool) : Bool × Bool :=
  (s, v)

/-- `SpinLock::try_lock` (src/Arachne.h:85-90): one exchange of `true`;
the acquisition succeeded iff the original value was `false`. Returns
(result, state after the call). -/
def try_lock (s : Bool) : Bool × Bool :=
  (!(exchange s true).1, (exchange s true).2)

/-- The retry loop of `SpinLock::lock` (src/Arachne.h:76-79):
`while (state.exchange(true) != false);` where `obs k` is the lock
state immediately before the `k`-th exchange (other threads may store
in between). Returns `some (k, after)` when the loop exits at attempt
`k` with `after` the state the exiting exchange installed; `none` when
it has not exited within `fuel` attempts. -/
def lockLoop (obs : Nat → Bool) : Nat → Nat → Option (Nat × Bool)
  | _, 0 => none
  | k, fuel + 1 =>
    let r := exchange (obs k) true
    if r.1 = true then lockLoop obs (k + 1) fuel else some (k, r.2)

/-- `SpinLock::unlock` (src/Arachne.h:93-96): a store of `false`. -/
def unlock (_s : Bool) : Bool :=
  false

/-- The `static_assert` guard in `ThreadInvocation`'s constructor
(src/Arachne.h:164-167): an instantiation compiles iff
`sizeof(ThreadInvocation<F>) <= CACHE_LINE_SIZE`. The argument is the
size in bytes of the wrapping `ThreadInvocation` object. -/
def threadInvocationFits (sizeofInvocation : Nat) : Bool :=
  sizeofInvocation ≤ CACHE_LINE_SIZE

/-- Size in bytes of `ThreadContext::threadInvocation`
(src/Arachne.h:214-216): a struct holding `char data[CACHE_LINE_SIZE]`,
so exactly `CACHE_LINE_SIZE` bytes (the alignment equals the size, so no
padding is added). -/
def threadInvocationStorageSize : Nat :=
  CACHE_LINE_SIZE

/-- Alignment in bytes of `ThreadContext::threadInvocation`
(src/Arachne.h:214): `alignas(CACHE_LINE_SIZE)`. -/
def threadInvocationStorageAlign : Nat :=
  CACHE_LINE_SIZE

/-- A state whose core 0 occupancy word has all 56 occupied bits set;
used to exercise the full-core paths on concrete input. -/
def fullState : ArachneState :=
  { occupiedAndCount := fun _ => { occupied := 2 ^ 56 - 1, numOccupied := 56 },
    activeLists := fun _ _ =>
      { wakeupTimeInCycles := UNOCCUPIED, generation := 0,
        threadInvocation := none } }

/-- A state with every slot of every core free; used to exercise the
load-balanced creation path on concrete input. -/
def emptyState : ArachneState :=
  { occupiedAndCount := fun _ => { occupied := 0, numOccupied := 0 },
    activeLists := fun _ _ =>
      { wakeupTimeInCycles := UNOCCUPIED, generation := 0,
        threadInvocation := none } }

lemma one_shiftLeft_eq (i : Nat) : 1 <<< i = 2 ^ i := by
  simp [Nat.shiftLeft_eq]

lemma and_one_shiftLeft_ne_zero_iff (n i : Nat) :
    n &&& (1 <<< i) ≠ 0 ↔ n.testBit i = true := by
  rw [one_shiftLeft_eq, Nat.and_two_pow]
  have hp : (2 : Nat) ^ i ≠ 0 := (Nat.pow_pos (by omega)).ne'
  cases h : n.testBit i <;> simp [h, hp]

lemma findSlotLoop_spec (occ : Nat) (gas : Nat) :
    ∀ index, maxThreadsPerCore + 1 ≤ index + gas → index ≤ maxThreadsPerCore →
      index ≤ findSlotLoop occ index gas ∧
      findSlotLoop occ index gas ≤ maxThreadsPerCore ∧
      (∀ j, index ≤ j → j < findSlotLoop occ index gas → occ.testBit j = true) ∧
      (findSlotLoop occ index gas < maxThreadsPerCore →
        occ.testBit (findSlotLoop occ index gas) = false) := by
  have hm : maxThreadsPerCore = 56 := rfl
  induction gas with
  | zero =>
    intro index h1 h2
    omega
  | succ gas ih =>
    intro index h1 h2
    by_cases hc : occ &&& (1 <<< index) ≠ 0 ∧ index < maxThreadsPerCore
    · have hstep : findSlotLoop occ index (gas + 1) = findSlotLoop occ (index + 1) gas := by
        simp [findSlotLoop, hc]
      have hbit : occ.testBit index = true :=
        (and_one_shiftLeft_ne_zero_iff occ index).mp hc.1
      have hrec := ih (index + 1) (by omega) (by omega)
      rw [hstep]
      refine ⟨by omega, hrec.2.1, ?_, hrec.2.2.2⟩
      intro j hj1 hj2
      rcases Nat.eq_or_lt_of_le hj1 with rfl | hj3
      · exact hbit
      · exact hrec.2.2.1 j hj3 hj2
    · have hstep : findSlotLoop occ index (gas + 1) = index := by
        simp only [findSlotLoop]
        rw [if_neg hc]
      rw [hstep]
      refine ⟨Nat.le_refl index, h2, ?_, ?_⟩
      · intro j hj1 hj2
        omega
      · intro hlt
        by_contra hset
        exact hc ⟨(and_one_shiftLeft_ne_zero_iff occ index).mpr
          (by simpa using hset), hlt⟩

lemma tryAllocSlot_of_full (w : MaskAndCount)
    (hfull : ∀ i, i < maxThreadsPerCore → w.occupied.testBit i = true) :
    tryAllocSlot w = none := by
  have hs := findSlotLoop_spec w.occupied (maxThreadsPerCore + 1) 0 (by omega) (by omega)
  have hr56 : findSlotLoop w.occupied 0 (maxThreadsPerCore + 1) = maxThreadsPerCore := by
    by_contra hne
    have hlt : findSlotLoop w.occupied 0 (maxThreadsPerCore + 1) < maxThreadsPerCore :=
      lt_of_le_of_ne hs.2.1 hne
    have h1 := hs.2.2.2 hlt
    have h2 := hfull _ hlt
    rw [h1] at h2
    exact Bool.false_ne_true h2
  unfold tryAllocSlot
  simp [hr56]

lemma tryAllocSlot_of_free (w : MaskAndCount) (i : Nat)
    (hi : i < maxThreadsPerCore) (hbit : w.occupied.testBit i = false) :
    tryAllocSlot w =
      some (findSlotLoop w.occupied 0 (maxThreadsPerCore + 1),
        { occupied :=
            (w.occupied ||| (1 <<< findSlotLoop w.occupied 0 (maxThreadsPerCore + 1)))
              &&& 0x00FFFFFFFFFFFFFF,
          numOccupied := (w.numOccupied + 1) % 256 }) ∧
    findSlotLoop w.occupied 0 (maxThreadsPerCore + 1) < maxThreadsPerCore ∧
    w.occupied.testBit (findSlotLoop w.occupied 0 (maxThreadsPerCore + 1)) = false ∧
    (∀ j, j < findSlotLoop w.occupied 0 (maxThreadsPerCore + 1) →
      w.occupied.testBit j = true) := by
  have hs := findSlotLoop_spec w.occupied (maxThreadsPerCore + 1) 0 (by omega) (by omega)
  have hlt : findSlotLoop w.occupied 0 (maxThreadsPerCore + 1) < maxThreadsPerCore := by
    rcases Nat.lt_or_ge (findSlotLoop w.occupied 0 (maxThreadsPerCore + 1))
        maxThreadsPerCore with h | h
    · exact h
    · exfalso
      have h1 := hs.2.2.1 i (Nat.zero_le i) (by omega)
      rw [hbit] at h1
      exact Bool.false_ne_true h1
  refine ⟨?_, hlt, hs.2.2.2 hlt, fun j hj => hs.2.2.1 j (Nat.zero_le j) hj⟩
  unfold tryAllocSlot
  simp [Nat.ne_of_lt hlt]

lemma or_mask_eq (occ idx : Nat) (hocc : occ < 2 ^ 56) (hidx : idx < 56) :
    (occ ||| (1 <<< idx)) &&& 0x00FFFFFFFFFFFFFF = occ ||| 2 ^ idx := by
  rw [one_shiftLeft_eq]
  have h1 : occ ||| 2 ^ idx < 2 ^ 56 :=
    Nat.or_lt_two_pow hocc (Nat.pow_lt_pow_right (by omega) hidx)
  have h2 : (0x00FFFFFFFFFFFFFF : Nat) = 2 ^ 56 - 1 := by norm_num
  rw [h2, Nat.and_pow_two_sub_one_eq_mod, Nat.mod_eq_of_lt h1]

lemma countP_or_singleton (p : Nat → Bool) (i : Nat) :
    ∀ l : List Nat, l.Nodup → i ∈ l → p i = false →
      l.countP (fun j => p j || j == i) = l.countP p + 1 := by
  intro l
  induction l with
  | nil => intro _ h; exact absurd h (List.not_mem_nil i)
  | cons a t ih =>
    intro hnd hmem hpi
    have hnd' := List.nodup_cons.mp hnd
    rw [List.countP_cons, List.countP_cons]
    rcases List.mem_cons.mp hmem with rfl | hm
    · have htail : t.countP (fun j => p j || j == i) = t.countP p := by
        apply List.countP_congr
        intro x hx
        have hxa : x ≠ i := fun h => hnd'.1 (by rw [← h]; exact hx)
        simp [hxa]
      rw [htail, hpi]
      simp
    · rw [ih hnd'.2 hm hpi]
      have hai : (a == i) = false := by
        have hne : a ≠ i := fun h => hnd'.1 (by rw [h]; exact hm)
        simp [hne]
      rw [hai]
      simp only [Bool.or_false]
      omega

lemma popcount56_or_two_pow (n i : Nat) (hi : i < maxThreadsPerCore)
    (hbit : n.testBit i = false) :
    popcount56 (n ||| 2 ^ i) = popcount56 n + 1 := by
  unfold popcount56
  have hcong : (List.range maxThreadsPerCore).countP (fun j => (n ||| 2 ^ i).testBit j) =
      (List.range maxThreadsPerCore).countP (fun j => n.testBit j || j == i) := by
    apply List.countP_congr
    intro x _
    rw [Nat.testBit_or]
    by_cases hx : x = i
    · subst hx
      simp [Nat.testBit_two_pow_self]
    · have h2 : (2 ^ i).testBit x = false :=
        Nat.testBit_two_pow_of_ne (fun h => hx h.symm)
      simp [h2, hx]
  rw [hcong]
  exact countP_or_singleton (fun j => n.testBit j) i _
    (List.nodup_range maxThreadsPerCore) (List.mem_range.mpr hi) hbit

lemma popcount56_le (n : Nat) : popcount56 n ≤ maxThreadsPerCore := by
  unfold popcount56
  have h : (List.range maxThreadsPerCore).countP (fun i => n.testBit i) ≤
      (List.range maxThreadsPerCore).length := List.countP_le_length _
  simpa using h

lemma cast_chain_eq (r : Nat) :
    castIntToUInt32 (castUInt64ToInt r) = r % 2 ^ 32 := by
  unfold castUInt64ToInt castIntToUInt32
  split <;> omega

/-- C1 (counterexample): the body of `block()` (src/Arachne.h:416-418)
contains no store of `BLOCKED` into the current context's
`wakeupTimeInCycles`: the claim that every call to `block()` sets
`wakeup_time = BLOCKED` before dispatcher selection fails on the source,
whose `block()` body is exactly `{ dispatch(); }`. -/
theorem block_stores_no_BLOCKED :
    blockBody.contains (DispatcherAction.setWakeupTime BLOCKED) = false := by
  decide

/-- C1 (amended): `block()` (src/Arachne.h:416-418) is exactly a call to
dispatcher selection: its body is the single step `dispatch()`, and it
performs no store to `wakeupTimeInCycles` (of `BLOCKED` or any other
value); callers that need the `BLOCKED` sentinel must store it
themselves before calling `block()`. -/
theorem block_is_exactly_dispatch :
    blockBody = [DispatcherAction.dispatchCall] ∧
    ∀ v, blockBody.contains (DispatcherAction.setWakeupTime v) = false :=
  ⟨rfl, fun _ => rfl⟩

/-- C2: when all 56 occupied bits of core `kId`'s occupancy word are
set, the core-targeted `createThread` (src/Arachne.h:327-366) returns
`NullThread`, and on this path it leaves the occupancy word of every
core and every thread context (`wakeupTimeInCycles`,
`threadInvocation`, `generation`) unchanged: the returned state is the
input state. -/
theorem createThread_full_core (s : ArachneState) (kId task : Nat)
    (hfull : ∀ i, i < maxThreadsPerCore →
      (s.occupiedAndCount kId).occupied.testBit i = true) :
    (createThreadOn s kId task).1 = NullThread ∧
    (createThreadOn s kId task).2 = s := by
  have h := tryAllocSlot_of_full (s.occupiedAndCount kId) hfull
  simp [createThreadOn, h]

/-- C2 (witness): instantiation of `createThread_full_core` on a
concrete state whose core-0 occupancy word is `2 ^ 56 - 1`. -/
theorem createThread_full_core_witness :
    (∀ i, i < maxThreadsPerCore →
      (fullState.occupiedAndCount 0).occupied.testBit i = true) ∧
    (createThreadOn fullState 0 7).1 = NullThread ∧
    (createThreadOn fullState 0 7).2 = fullState :=
  ⟨by decide, createThread_full_core fullState 0 7 (by decide)⟩

/-- C3: on any occupancy-word snapshot with at least one clear bit among
bits 0..55, the slot the `createThread` allocation loop
(src/Arachne.h:336-358) reserves is the lowest clear index of that
snapshot, and the word it installs is the snapshot with exactly that bit
additionally set and the 8-bit `numOccupied` field incremented. -/
theorem createThread_lowest_free_slot (w : MaskAndCount) (i : Nat)
    (hocc : w.occupied < 2 ^ 56) (hi : i < maxThreadsPerCore)
    (hbit : w.occupied.testBit i = false) :
    ∃ index w2, tryAllocSlot w = some (index, w2) ∧
      index < maxThreadsPerCore ∧
      w.occupied.testBit index = false ∧
      (∀ j, j < index → w.occupied.testBit j = true) ∧
      w2.occupied = w.occupied ||| 2 ^ index ∧
      (∀ j, w2.occupied.testBit j =
        (w.occupied.testBit j || decide (j = index))) ∧
      w2.numOccupied = (w.numOccupied + 1) % 256 := by
  obtain ⟨halloc, hlt, hfree, hlow⟩ := tryAllocSlot_of_free w i hi hbit
  have hm : maxThreadsPerCore = 56 := rfl
  have hmask := or_mask_eq w.occupied
    (findSlotLoop w.occupied 0 (maxThreadsPerCore + 1)) hocc (by omega)
  refine ⟨findSlotLoop w.occupied 0 (maxThreadsPerCore + 1),
    { occupied :=
        (w.occupied ||| (1 <<< findSlotLoop w.occupied 0 (maxThreadsPerCore + 1)))
          &&& 0x00FFFFFFFFFFFFFF,
      numOccupied := (w.numOccupied + 1) % 256 },
    halloc, hlt, hfree, hlow, hmask, ?_, rfl⟩
  intro j
  show ((w.occupied ||| (1 <<< findSlotLoop w.occupied 0 (maxThreadsPerCore + 1)))
      &&& 0x00FFFFFFFFFFFFFF).testBit j = _
  rw [hmask, Nat.testBit_or]
  by_cases hj : j = findSlotLoop w.occupied 0 (maxThreadsPerCore + 1)
  · subst hj
    simp [Nat.testBit_two_pow_self]
  · simp [Nat.testBit_two_pow_of_ne (fun h => hj h.symm), hj]

/-- C3 (witness): instantiation of `createThread_lowest_free_slot` on
the concrete word `{occupied := 1, numOccupied := 1}`, whose lowest
clear bit is bit 1. -/
theorem createThread_lowest_free_slot_witness :
    (1 : Nat) < 2 ^ 56 ∧ (1 : Nat) < maxThreadsPerCore ∧
    Nat.testBit 1 1 = false ∧
    (∃ index w2,
      tryAllocSlot { occupied := 1, numOccupied := 1 } = some (index, w2) ∧
      index < maxThreadsPerCore ∧
      Nat.testBit (1 : Nat) index = false ∧
      (∀ j, j < index → Nat.testBit (1 : Nat) j = true) ∧
      w2.occupied = 1 ||| 2 ^ index ∧
      (∀ j, w2.occupied.testBit j =
        (Nat.testBit (1 : Nat) j || decide (j = index))) ∧
      w2.numOccupied = (1 + 1) % 256) :=
  ⟨by decide, by decide, by decide,
    createThread_lowest_free_slot { occupied := 1, numOccupied := 1 } 1
      (by decide) (by decide) (by decide)⟩

/-- C4: a successful slot-allocation update of `createThread`
(src/Arachne.h:352-357) preserves the occupancy-word invariant
`num_occupied == popcount(occupied)`: if the snapshot the CAS succeeds
against satisfies it, so does the installed word. -/
theorem alloc_preserves_invariant (w : MaskAndCount) (index : Nat)
    (w2 : MaskAndCount)
    (hocc : w.occupied < 2 ^ 56)
    (hinv : maskAndCountInvariant w)
    (halloc : tryAllocSlot w = some (index, w2)) :
    maskAndCountInvariant w2 := by
  have hm : maxThreadsPerCore = 56 := rfl
  unfold tryAllocSlot at halloc
  by_cases hfull : findSlotLoop w.occupied 0 (maxThreadsPerCore + 1) = maxThreadsPerCore
  · simp [hfull] at halloc
  · simp only [if_neg hfull, Option.some.injEq, Prod.mk.injEq] at halloc
    obtain ⟨hidx, hw2⟩ := halloc
    have hs := findSlotLoop_spec w.occupied (maxThreadsPerCore + 1) 0
      (by omega) (by omega)
    have hlt : findSlotLoop w.occupied 0 (maxThreadsPerCore + 1) <
        maxThreadsPerCore := lt_of_le_of_ne hs.2.1 hfull
    have hfree := hs.2.2.2 hlt
    have hmask := or_mask_eq w.occupied
      (findSlotLoop w.occupied 0 (maxThreadsPerCore + 1)) hocc (by omega)
    have hpc : popcount56 ((w.occupied |||
        (1 <<< findSlotLoop w.occupied 0 (maxThreadsPerCore + 1)))
          &&& 0x00FFFFFFFFFFFFFF) = popcount56 w.occupied + 1 := by
      rw [hmask]
      exact popcount56_or_two_pow w.occupied _ hlt hfree
    have hle := popcount56_le w.occupied
    unfold maskAndCountInvariant at hinv ⊢
    rw [← hw2]
    simp only [hpc]
    omega

/-- C4 (witness): instantiation of `alloc_preserves_invariant` on the
empty word, which allocates slot 0 and installs
`{occupied := 1, numOccupied := 1}`. -/
theorem alloc_preserves_invariant_witness :
    (0 : Nat) < 2 ^ 56 ∧
    maskAndCountInvariant { occupied := 0, numOccupied := 0 } ∧
    tryAllocSlot { occupied := 0, numOccupied := 0 } =
      some (0, { occupied := 1, numOccupied := 1 }) ∧
    maskAndCountInvariant { occupied := 1, numOccupied := 1 } :=
  ⟨by decide, by unfold maskAndCountInvariant; decide, by decide,
    alloc_preserves_invariant { occupied := 0, numOccupied := 0 } 0
      { occupied := 1, numOccupied := 1 }
      (by decide) (by unfold maskAndCountInvariant; decide) (by decide)⟩

/-- C10: a default-constructed `ThreadId` (src/Arachne.h:51-53) has a
null context and generation 0, so it equals `NullThread`
(src/Arachne.h:129) under `operator==`; `operator!=` is the exact
negation of `operator==`; and the value returned by `createThread` when
the target core is full compares equal to `NullThread`. -/
theorem NullThread_semantics (a b : ThreadId) (s : ArachneState)
    (kId task : Nat)
    (hfull : ∀ i, i < maxThreadsPerCore →
      (s.occupiedAndCount kId).occupied.testBit i = true) :
    NullThread.context = none ∧ NullThread.generation = 0 ∧
    ThreadId.eq NullThread NullThread = true ∧
    ThreadId.ne a b = !(ThreadId.eq a b) ∧
    ThreadId.eq (createThreadOn s kId task).1 NullThread = true := by
  refine ⟨rfl, rfl, rfl, rfl, ?_⟩
  have h := tryAllocSlot_of_full (s.occupiedAndCount kId) hfull
  have h2 : (createThreadOn s kId task).1 = NullThread := by
    simp [createThreadOn, h]
  rw [h2]
  rfl

lemma pickSecondChoice_spec (numCores choice1 : Nat) (rands : Nat → Nat) :
    ∀ fuel k c2, pickSecondChoice numCores choice1 rands k fuel = some c2 →
      c2 ≠ choice1 ∧ ∃ m, c2 = candidateCore (rands m) numCores := by
  intro fuel
  induction fuel with
  | zero => intro k c2 h; simp [pickSecondChoice] at h
  | succ fuel ih =>
    intro k c2 h
    by_cases hc : candidateCore (rands k) numCores = choice1
    · have hstep : pickSecondChoice numCores choice1 rands k (fuel + 1) =
          pickSecondChoice numCores choice1 rands (k + 1) fuel := by
        simp [pickSecondChoice, hc]
      rw [hstep] at h
      exact ih (k + 1) c2 h
    · have hstep : pickSecondChoice numCores choice1 rands k (fuel + 1) =
          some (candidateCore (rands k) numCores) := by
        simp [pickSecondChoice, hc]
      rw [hstep] at h
      obtain rfl : candidateCore (rands k) numCores = c2 := by
        injection h
      exact ⟨hc, k, rfl⟩

lemma pickSecondChoice_one_none (rands : Nat → Nat) :
    ∀ fuel k choice1, pickSecondChoice 1 choice1 rands k fuel = none ∨
      pickSecondChoice 1 choice1 rands k fuel = some 0 := by
  intro fuel
  induction fuel with
  | zero => intro k choice1; exact Or.inl rfl
  | succ fuel ih =>
    intro k choice1
    have hc : candidateCore (rands k) 1 = 0 := Nat.mod_one _
    by_cases h1 : candidateCore (rands k) 1 = choice1
    · have hstep : pickSecondChoice 1 choice1 rands k (fuel + 1) =
          pickSecondChoice 1 choice1 rands (k + 1) fuel := by
        simp [pickSecondChoice, h1]
      rw [hstep]
      exact ih (k + 1) choice1
    · have hstep : pickSecondChoice 1 choice1 rands k (fuel + 1) =
          some (candidateCore (rands k) 1) := by
        simp [pickSecondChoice, h1]
      rw [hstep, hc]
      exact Or.inr rfl

/-- C5: whenever the two-choice selection of the load-balanced
`createThread` (src/Arachne.h:386-404) completes, the two candidate
cores are distinct, the candidate with strictly smaller `numOccupied`
is chosen, ties go to the second choice, and the call delegates to the
core-targeted `createThread` on the chosen core. -/
theorem loadBalanced_two_choice (s : ArachneState) (numCores task : Nat)
    (rands : Nat → Nat) (fuel : Nat) (c1 c2 kId : Nat)
    (h : chooseCore s.occupiedAndCount numCores rands fuel =
      some (c1, c2, kId)) :
    c1 ≠ c2 ∧
    ((s.occupiedAndCount c1).numOccupied <
        (s.occupiedAndCount c2).numOccupied → kId = c1) ∧
    ((s.occupiedAndCount c2).numOccupied ≤
        (s.occupiedAndCount c1).numOccupied → kId = c2) ∧
    createThreadLB s numCores rands fuel task =
      some (createThreadOn s kId task) := by
  have hlb : createThreadLB s numCores rands fuel task =
      some (createThreadOn s kId task) := by
    simp [createThreadLB, h]
  simp only [chooseCore] at h
  rcases hp : pickSecondChoice numCores (candidateCore (rands 0) numCores)
      rands 1 fuel with _ | c2'
  · rw [hp] at h
    simp at h
  · rw [hp] at h
    simp only [Option.some.injEq, Prod.mk.injEq] at h
    obtain ⟨hc1, hc2, hkid⟩ := h
    have hne := (pickSecondChoice_spec numCores
      (candidateCore (rands 0) numCores) rands fuel 1 c2' hp).1
    subst hc1
    subst hc2
    refine ⟨fun hcc => hne hcc.symm, ?_, ?_, hlb⟩
    · intro hlt
      rw [← hkid, if_pos hlt]
    · intro hle
      rw [← hkid, if_neg (by omega)]

/-- C5 (witness): instantiation of `loadBalanced_two_choice` on two
cores, the identity draw stream (first draw picks core 0, second picks
core 1) and the all-free state; the tie between the equally loaded
cores falls to the second choice, core 1. -/
theorem loadBalanced_two_choice_witness :
    chooseCore emptyState.occupiedAndCount 2 (fun n => n) 1 =
      some (0, 1, 1) ∧
    ((0 : Nat) ≠ 1 ∧
     ((emptyState.occupiedAndCount 0).numOccupied <
        (emptyState.occupiedAndCount 1).numOccupied → (1 : Nat) = 0) ∧
     ((emptyState.occupiedAndCount 1).numOccupied ≤
        (emptyState.occupiedAndCount 0).numOccupied → (1 : Nat) = 1) ∧
     createThreadLB emptyState 2 (fun n => n) 1 5 =
       some (createThreadOn emptyState 1 5)) :=
  ⟨by decide,
    loadBalanced_two_choice emptyState 2 5 (fun n => n) 1 0 1 1 (by decide)⟩

/-- C6: with `num_cores == 1` the distinct-core loop of the
load-balanced `createThread` (src/Arachne.h:392-395) never terminates:
every candidate computed from any draw equals `choice1`, so for every
draw stream and every fuel bound the loop has not exited, core selection
never completes, and the call never returns. -/
theorem single_core_loops_forever (rands : Nat → Nat) (fuel k : Nat)
    (occ : Nat → MaskAndCount) (s : ArachneState) (task : Nat) :
    candidateCore (rands k) 1 = candidateCore (rands 0) 1 ∧
    pickSecondChoice 1 (candidateCore (rands 0) 1) rands 1 fuel = none ∧
    chooseCore occ 1 rands fuel = none ∧
    createThreadLB s 1 rands fuel task = none := by
  have hc : ∀ m, candidateCore (rands m) 1 = 0 := fun m => Nat.mod_one _
  have hpick : ∀ fl st, pickSecondChoice 1 (candidateCore (rands 0) 1)
      rands st fl = none := by
    intro fl
    induction fl with
    | zero => intro st; rfl
    | succ fl ih =>
      intro st
      have hstep : pickSecondChoice 1 (candidateCore (rands 0) 1) rands st
          (fl + 1) = pickSecondChoice 1 (candidateCore (rands 0) 1) rands
          (st + 1) fl := by
        simp [pickSecondChoice, hc st, hc 0]
      rw [hstep]
      exact ih (st + 1)
  have hchoose : ∀ f2 : Nat → MaskAndCount, chooseCore f2 1 rands fuel = none := by
    intro f2
    simp [chooseCore, hpick fuel 1]
  refine ⟨by rw [hc k, hc 0], hpick fuel 1, hchoose occ, ?_⟩
  simp [createThreadLB, hchoose]

/-- C7: for every `num_cores ≥ 1` and every 64-bit `random()` output,
the candidate-core expression `static_cast<int>(random()) % numCores`
of the load-balanced `createThread` (src/Arachne.h:392-395) evaluates —
through the int cast and the unsigned usual-arithmetic conversion — to
`(r mod 2^32) mod numCores`, which lies in `[0, num_cores)`; hence both
`occupiedAndCount[choice1]` and `occupiedAndCount[choice2]` (and any
retry candidate) are read in bounds. -/
theorem candidate_core_in_range (numCores r : Nat) (h : 1 ≤ numCores) :
    candidateCore r numCores = (r % 2 ^ 32) % numCores ∧
    candidateCore r numCores < numCores := by
  have he : candidateCore r numCores = (r % 2 ^ 32) % numCores := by
    unfold candidateCore
    rw [cast_chain_eq]
  exact ⟨he, he ▸ Nat.mod_lt _ (by omega)⟩

/-- C7 (witness): instantiation of `candidate_core_in_range` at a draw
above 2^63 (whose int cast is negative in C++) and two cores. -/
theorem candidate_core_in_range_witness :
    candidateCore (2 ^ 63 + 5) 2 = ((2 ^ 63 + 5) % 2 ^ 32) % 2 ∧
    candidateCore (2 ^ 63 + 5) 2 < 2 :=
  candidate_core_in_range 2 (2 ^ 63 + 5) (by decide)

/-- C8: thread creation accepts a callable-plus-arguments payload only
when the wrapping `ThreadInvocation` object fits in one cache line (the
`static_assert` of src/Arachne.h:164-167 rejects larger wrappers at
compile time), and the per-context `threadInvocation` storage
(src/Arachne.h:214-216) is exactly `CACHE_LINE_SIZE` bytes and is
cache-line aligned, with `CACHE_LINE_SIZE = 64` per the spec. -/
theorem invocation_fits_cache_line (szBig szSmall : Nat)
    (hbig : CACHE_LINE_SIZE < szBig) (hsmall : szSmall ≤ CACHE_LINE_SIZE) :
    threadInvocationFits szBig = false ∧
    threadInvocationFits szSmall = true ∧
    threadInvocationStorageSize = CACHE_LINE_SIZE ∧
    threadInvocationStorageAlign = CACHE_LINE_SIZE ∧
    CACHE_LINE_SIZE = 64 := by
  refine ⟨?_, ?_, rfl, rfl, rfl⟩
  · simp [threadInvocationFits]
    omega
  · simp [threadInvocationFits]
    omega

/-- C8 (witness): instantiation of `invocation_fits_cache_line` at a
65-byte wrapper (rejected) and a 64-byte wrapper (accepted). -/
theorem invocation_fits_cache_line_witness :
    threadInvocationFits 65 = false ∧
    threadInvocationFits 64 = true ∧
    threadInvocationStorageSize = CACHE_LINE_SIZE ∧
    threadInvocationStorageAlign = CACHE_LINE_SIZE ∧
    CACHE_LINE_SIZE = 64 :=
  invocation_fits_cache_line 65 64 (by decide) (by decide)

lemma lockLoop_spec (obs : Nat → Bool) :
    ∀ fuel start k b, lockLoop obs start fuel = some (k, b) →
      start ≤ k ∧ obs k = false ∧ b = true ∧
      ∀ j, start ≤ j → j < k → obs j = true := by
  intro fuel
  induction fuel with
  | zero => intro start k b h; simp [lockLoop] at h
  | succ fuel ih =>
    intro start k b h
    by_cases hc : obs start = true
    · have hstep : lockLoop obs start (fuel + 1) =
          lockLoop obs (start + 1) fuel := by
        simp [lockLoop, exchange, hc]
      rw [hstep] at h
      obtain ⟨h1, h2, h3, h4⟩ := ih (start + 1) k b h
      refine ⟨by omega, h2, h3, ?_⟩
      intro j hj1 hj2
      rcases Nat.eq_or_lt_of_le hj1 with rfl | hj3
      · exact hc
      · exact h4 j hj3 hj2
    · have hco : obs start = false := by
        simpa using hc
      have hstep : lockLoop obs start (fuel + 1) = some (start, true) := by
        simp [lockLoop, exchange, hco]
      rw [hstep] at h
      obtain ⟨rfl, rfl⟩ : start = k ∧ true = b := by
        constructor <;> injection h with h5 <;> cases h5 <;> rfl
      exact ⟨Nat.le_refl _, hco, rfl, fun j hj1 hj2 => absurd hj2 (by omega)⟩

/-- C9: `SpinLock::try_lock` (src/Arachne.h:85-90) performs a single
exchange and returns `true` exactly when the lock was free immediately
before the call, leaving the lock held in either case; the
`SpinLock::lock` retry loop (src/Arachne.h:76-79) returns only at an
exchange that observed the free state (all earlier attempts observed it
held), leaving the lock held; `SpinLock::unlock` (src/Arachne.h:93-96)
stores the free state. -/
theorem spinlock_semantics (s t : Bool) (obs : Nat → Bool)
    (fuel k : Nat) (b : Bool)
    (h : lockLoop obs 0 fuel = some (k, b)) :
    ((try_lock s).1 = true ↔ s = false) ∧
    (try_lock s).2 = true ∧
    obs k = false ∧
    (∀ j, j < k → obs j = true) ∧
    b = true ∧
    unlock t = false := by
  obtain ⟨_, h2, h3, h4⟩ := lockLoop_spec obs fuel 0 k b h
  refine ⟨?_, rfl, h2, fun j hj => h4 j (Nat.zero_le j) hj, h3, rfl⟩
  cases s <;> simp [try_lock, exchange]

/-- C9 (witness): instantiation of `spinlock_semantics` on the
initially free lock, where the first exchange of `lock()` succeeds at
attempt 0. -/
theorem spinlock_semantics_witness :
    ((try_lock true).1 = true ↔ true = false) ∧
    (try_lock true).2 = true ∧
    (fun _ : Nat => false) 0 = false ∧
    (∀ j, j < 0 → (fun _ : Nat => false) j = true) ∧
    true = true ∧
    unlock true = false :=
  spinlock_semantics true true (fun _ => false) 1 0 true (by decide)

/-- C10 (witness): instantiation of `NullThread_semantics` on concrete
identifiers and the full-core state. -/
theorem NullThread_semantics_witness :
    (∀ i, i < maxThreadsPerCore →
      (fullState.occupiedAndCount 0).occupied.testBit i = true) ∧
    (NullThread.context = none ∧ NullThread.generation = 0 ∧
     ThreadId.eq NullThread NullThread = true ∧
     ThreadId.ne { context := some (2, 3), generation := 5 }
       { context := none, generation := 1 } =
       !(ThreadId.eq { context := some (2, 3), generation := 5 }
         { context := none, generation := 1 }) ∧
     ThreadId.eq (createThreadOn fullState 0 3).1 NullThread = true) :=
  ⟨by decide,
    NullThread_semantics { context := some (2, 3), generation := 5 }
      { context := none, generation := 1 } fullState 0 3 (by decide)⟩

end Arachne
